import Mathlib

/-!
Verification of the response-normalization and deployment-pipeline core of the
`sui_hacker_house_backend` repository, as a shallow embedding in Lean 4.

The Go sources embedded here:
- `src/ai/generator.go` (generation flow: fence stripping, the three-strategy
  parse cascade, the retry-once completion call, the zero-files check);
- `src/internal/ai/GenerateCodeChanges.go` (refinement flow: array parse then
  wrapped-key cascade, retry-once with a strict response format);
- `src/unnamed/part_004` (`utils.ShouldRetry`, the transient-error classifier);
- `src/internal/sui/walrus/deploy.go` (`DeployFiles` write loop and stage
  sequencing, `extractCID`).

Go's `encoding/json` is modelled by a total JSON parser over `List Char`
(fuel-indexed for totality) plus decoders reproducing `json.Unmarshal`'s
behavior on the target types: unknown object fields are ignored, field names
match case-insensitively, `null` is a no-op on strings and structs and nils
maps and slices, and a type mismatch is recorded while decoding continues —
so `Unmarshal` can report an error and still leave a partially-decoded
target, which the source's parse cascades observably reuse (the slice-state
model below threads this through both wrapped-key loops).
-/

set_option maxRecDepth 4000

deriving instance DecidableEq for Except

/-! ### Characters and Go string primitives -/

/-- The `{` character, kept out of literals. -/
def lbrace : Char := Char.ofNat 123

/-- The `}` character, kept out of literals. -/
def rbrace : Char := Char.ofNat 125

/-- ASCII whitespace as recognized by Go's `unicode.IsSpace` (ASCII fragment;
the repository's inputs are ASCII). -/
def isSpc (c : Char) : Bool :=
  c = ' ' || c = '\t' || c = '\n' || c = '\r' || c = Char.ofNat 11 || c = Char.ofNat 12

/-- ASCII lowering of one character (the ASCII fragment of Go's `unicode.ToLower`). -/
def toLowerCh (c : Char) : Char :=
  if 'A' ≤ c ∧ c ≤ 'Z' then Char.ofNat (c.toNat + 32) else c

/-- `goHasPfxL s p`: `p` is a prefix of `s` (Go `strings.HasPrefix` over chars). -/
def goHasPfxL : List Char → List Char → Bool
  | _, [] => true
  | [], _ :: _ => false
  | c :: cs, d :: ds => c = d && goHasPfxL cs ds

/-- Go `strings.Contains` over char lists. -/
def goContainsL : List Char → List Char → Bool
  | [], n => n.isEmpty
  | c :: t, n => goHasPfxL (c :: t) n || goContainsL t n

/-- Index of the first occurrence of `n` in `s` (Go `strings.Index`, char-level). -/
def goIndexL : List Char → List Char → Option Nat
  | [], n => if n.isEmpty then some 0 else none
  | c :: t, n => if goHasPfxL (c :: t) n then some 0 else (goIndexL t n).map (· + 1)

/-- Go `strings.HasPrefix`. -/
def goHasPfx (s p : String) : Bool := goHasPfxL s.data p.data

/-- Go `strings.HasSuffix`. -/
def goHasSfx (s p : String) : Bool := goHasPfxL s.data.reverse p.data.reverse

/-- Go `strings.TrimPrefix`. -/
def goTrimPfx (s p : String) : String :=
  if goHasPfx s p then ⟨s.data.drop p.data.length⟩ else s

/-- Go `strings.TrimSuffix`. -/
def goTrimSfx (s p : String) : String :=
  if goHasSfx s p then ⟨s.data.take (s.data.length - p.data.length)⟩ else s

/-- Go `strings.TrimSpace` (ASCII whitespace model). -/
def goTrimSpace (s : String) : String :=
  ⟨((s.data.dropWhile isSpc).reverse.dropWhile isSpc).reverse⟩

/-- Go `strings.ToLower` (ASCII model). -/
def goToLower (s : String) : String := ⟨s.data.map toLowerCh⟩

/-- Go `strings.Contains`. -/
def goContains (s sub : String) : Bool := goContainsL s.data sub.data

/-- Go `strings.Index` (char-level index; `none` for Go's `-1`). -/
def goIndexOf (s sub : String) : Option Nat := goIndexL s.data sub.data

/-- Splitter for Go `strings.Fields`: maximal runs of non-whitespace. -/
def goFieldsL (cs : List Char) : List (List Char) :=
  let r := cs.foldl
    (fun (acc : List (List Char) × List Char) c =>
      if isSpc c then (if acc.2.isEmpty then acc else (acc.2.reverse :: acc.1, []))
      else (acc.1, c :: acc.2))
    ([], [])
  (if r.2.isEmpty then r.1 else r.2.reverse :: r.1).reverse

/-- Go `strings.Fields`. -/
def goFields (s : String) : List String := (goFieldsL s.data).map String.mk

/-- Split at every occurrence of a separator character (Go `strings.Split`
with a one-character separator: the empty input yields one empty field). -/
def splitOnCharL (sep : Char) : List Char → List (List Char)
  | [] => [[]]
  | c :: t =>
    let r := splitOnCharL sep t
    if c = sep then [] :: r
    else
      match r with
      | h :: rest => (c :: h) :: rest
      | [] => [[c]]

/-- Go `strings.Split(s, "\n")`. -/
def goSplitLines (s : String) : List String := (splitOnCharL '\n' s.data).map String.mk

/-- Join a list of path components with `/` (Go `strings.Join(comps, "/")`). -/
def joinSlash : List String → String
  | [] => ""
  | [x] => x
  | x :: xs => x ++ "/" ++ joinSlash xs

/-! ### JSON values and a parser for Go's `encoding/json` syntax

The parser is a recursive-descent parser over `List Char`, fuel-indexed for
totality; the fuel is instantiated with the input length plus one, which is
ample since every recursive call consumes at least one character. Numbers are
kept as their raw lexeme: no numeric JSON value is well-typed for any decode
target used by the repository, so their value is never inspected. -/

/-- A parsed JSON value. Objects keep their fields in document order, with
duplicates preserved (Go's decoders see every occurrence, last one winning). -/
inductive Json where
  | null
  | bool (b : Bool)
  | num (raw : String)
  | str (s : String)
  | arr (elems : List Json)
  | obj (fields : List (String × Json))

/-- JSON whitespace (`encoding/json` accepts exactly space, tab, LF, CR). -/
def isJsonWs (c : Char) : Bool := c = ' ' || c = '\t' || c = '\n' || c = '\r'

/-- Drop leading JSON whitespace. -/
def skipWs : List Char → List Char
  | [] => []
  | c :: cs => if isJsonWs c then skipWs cs else c :: cs

/-- Value of one hex digit. -/
def hexVal (c : Char) : Option Nat :=
  if '0' ≤ c ∧ c ≤ '9' then some (c.toNat - '0'.toNat)
  else if 'a' ≤ c ∧ c ≤ 'f' then some (c.toNat - 'a'.toNat + 10)
  else if 'A' ≤ c ∧ c ≤ 'F' then some (c.toNat - 'A'.toNat + 10)
  else none

/-- Resolve a single-character escape sequence. -/
def escCh (c : Char) : Option Char :=
  if c = '"' then some '"'
  else if c = '\\' then some '\\'
  else if c = '/' then some '/'
  else if c = 'b' then some (Char.ofNat 8)
  else if c = 'f' then some (Char.ofNat 12)
  else if c = 'n' then some '\n'
  else if c = 'r' then some '\r'
  else if c = 't' then some '\t'
  else none

/-- Parse a string body after the opening quote, returning the decoded
characters and the rest of the input. Structural on the input list. -/
def parseStrBody : List Char → Option (List Char × List Char)
  | [] => none
  | c :: cs =>
    if c = '"' then some ([], cs)
    else if c = '\\' then
      match cs with
      | [] => none
      | e :: cs2 =>
        if e = 'u' then
          match cs2 with
          | h1 :: h2 :: h3 :: h4 :: rest =>
            match hexVal h1, hexVal h2, hexVal h3, hexVal h4 with
            | some a, some b, some c2, some d =>
              (parseStrBody rest).map
                (fun r => (Char.ofNat (((a * 16 + b) * 16 + c2) * 16 + d) :: r.1, r.2))
            | _, _, _, _ => none
          | _ => none
        else
          match escCh e with
          | some ch => (parseStrBody cs2).map (fun r => (ch :: r.1, r.2))
          | none => none
    else if c.toNat < 32 then none
    else (parseStrBody cs).map (fun r => (c :: r.1, r.2))

/-- Span of decimal digits. -/
def spanDigits (cs : List Char) : List Char × List Char :=
  cs.span (fun c => '0' ≤ c ∧ c ≤ '9')

/-- Parse a JSON number lexeme (`-?(0|[1-9][0-9]*)(\.[0-9]+)?([eE][+-]?[0-9]+)?`),
returning the raw lexeme and the rest. -/
def parseNumLex (cs : List Char) : Option (List Char × List Char) :=
  let (neg, cs1) := match cs with
    | c :: t => if c = '-' then ([c], t) else (([] : List Char), cs)
    | [] => ([], [])
  match cs1 with
  | [] => none
  | d :: _ =>
    if ¬ ('0' ≤ d ∧ d ≤ '9') then none
    else
      let (intDs, r1) := spanDigits cs1
      if d = '0' ∧ intDs.length ≠ 1 then none
      else
        let fracRes : Option (List Char × List Char) := match r1 with
          | p :: r2 =>
            if p = '.' then
              let (frDs, r3) := spanDigits r2
              if frDs.isEmpty then none else some (p :: frDs, r3)
            else some ([], r1)
          | [] => some ([], r1)
        match fracRes with
        | none => none
        | some (frac, r3) =>
          let expRes : Option (List Char × List Char) := match r3 with
            | e :: r4 =>
              if e = 'e' ∨ e = 'E' then
                let (sgn, r5) := match r4 with
                  | s :: r6 => if s = '+' ∨ s = '-' then ([s], r6) else (([] : List Char), r4)
                  | [] => ([], [])
                let (exDs, r6) := spanDigits r5
                if exDs.isEmpty then none else some (e :: sgn ++ exDs, r6)
              else some ([], r3)
            | [] => some ([], r3)
          match expRes with
          | none => none
          | some (ex, rest) => some (neg ++ intDs ++ frac ++ ex, rest)

/-- Consume an exact literal tail (for `true` / `false` / `null`). -/
def litRest : List Char → List Char → Option (List Char)
  | [], rest => some rest
  | _ :: _, [] => none
  | l :: ls, c :: cs => if c = l then litRest ls cs else none

mutual

/-- Parse one JSON value, fuel-indexed. -/
def parseVal : Nat → List Char → Option (Json × List Char)
  | 0, _ => none
  | f + 1, cs =>
    match skipWs cs with
    | [] => none
    | c :: rest =>
      if c = lbrace then
        match skipWs rest with
        | [] => none
        | d :: rest2 =>
          if d = rbrace then some (.obj [], rest2)
          else (parseObjItems f (d :: rest2)).map (fun r => (Json.obj r.1, r.2))
      else if c = '[' then
        match skipWs rest with
        | [] => none
        | d :: rest2 =>
          if d = ']' then some (.arr [], rest2)
          else (parseArrItems f (d :: rest2)).map (fun r => (Json.arr r.1, r.2))
      else if c = '"' then
        (parseStrBody rest).map (fun r => (Json.str (String.mk r.1), r.2))
      else if c = 't' then (litRest "rue".data rest).map (fun r => (Json.bool true, r))
      else if c = 'f' then (litRest "alse".data rest).map (fun r => (Json.bool false, r))
      else if c = 'n' then (litRest "ull".data rest).map (fun r => (Json.null, r))
      else (parseNumLex (c :: rest)).map (fun r => (Json.num (String.mk r.1), r.2))

/-- Parse the elements of a non-empty array body, up to and including `]`. -/
def parseArrItems : Nat → List Char → Option (List Json × List Char)
  | 0, _ => none
  | f + 1, cs =>
    match parseVal f cs with
    | none => none
    | some (v, r) =>
      match skipWs r with
      | [] => none
      | c :: rest =>
        if c = ',' then (parseArrItems f rest).map (fun r2 => (v :: r2.1, r2.2))
        else if c = ']' then some ([v], rest)
        else none

/-- Parse the members of a non-empty object body, up to and including the
closing brace. -/
def parseObjItems : Nat → List Char → Option (List (String × Json) × List Char)
  | 0, _ => none
  | f + 1, cs =>
    match cs with
    | [] => none
    | c :: rest =>
      if c = '"' then
        match parseStrBody rest with
        | none => none
        | some (k, r) =>
          match skipWs r with
          | [] => none
          | d :: r2 =>
            if d = ':' then
              match parseVal f r2 with
              | none => none
              | some (v, r3) =>
                match skipWs r3 with
                | [] => none
                | e :: r4 =>
                  if e = ',' then
                    (parseObjItems f (skipWs r4)).map
                      (fun r5 => ((String.mk k, v) :: r5.1, r5.2))
                  else if e = rbrace then some ([(String.mk k, v)], r4)
                  else none
            else none
      else none

end

/-- Parse a whole JSON text: one value, then nothing but whitespace — the
acceptance condition of `json.Unmarshal`. -/
def parseJson (s : String) : Option Json :=
  match parseVal (s.data.length + 1) s.data with
  | some (j, rest) => if (skipWs rest).isEmpty then some j else none
  | none => none

/-! ### Decoders for the repository's target types

These reproduce `json.Unmarshal`'s behavior for the concrete Go targets:
`[]GeneratedFile`, `GeneratedFile`, and `map[string]json.RawMessage`.
`Unmarshal` first validates syntax (a syntax error leaves the target
untouched); during decoding a type mismatch on a matched field is recorded via
`d.saveError` and decoding continues, so the reported error comes with a
partially-decoded target. Object keys match struct fields case-insensitively;
unknown keys are ignored (their values skipped); a JSON `null` is a no-op on
strings and structs and zeroes maps and slices. Decoding an array into a slice
reuses the existing backing cells element by element — an incoming object sets
only the fields it carries, so fields absent from it keep the cell's previous
values, an observable merge when the callers re-`Unmarshal` into the same
slice — truncates the length to the incoming length, and replaces the target
with a fresh empty slice for an empty array. `SliceState` keeps `cells`, every
backing cell written so far (the high-water content; cells beyond it are
zeroed by Go's allocator whether or not a reallocation happens, since
reallocation copies only the current length), and the current length `len`. -/

/-- `GeneratedFile` from `src/ai/generator.go` (one file descriptor: JSON tags
`filename`, `type`, `content`). -/
structure GeneratedFile where
  filename : String
  type : String
  content : String
deriving DecidableEq

/-- The zero `GeneratedFile` (a freshly declared Go struct). -/
def zeroFile : GeneratedFile := ⟨"", "", ""⟩

/-- Apply one incoming object member to the matching `GeneratedFile` field, if
any: a string sets the field, `null` is a no-op, any other value is a type
error (recorded, the field keeping its previous value); unmatched keys are
skipped. Second component: no error. -/
def setFieldInto (f : GeneratedFile) (k : String) (v : Json) : GeneratedFile × Bool :=
  if goToLower k = "filename" then
    match v with
    | .str s => ({ f with filename := s }, true)
    | .null => (f, true)
    | _ => (f, false)
  else if goToLower k = "type" then
    match v with
    | .str s => ({ f with type := s }, true)
    | .null => (f, true)
    | _ => (f, false)
  else if goToLower k = "content" then
    match v with
    | .str s => ({ f with content := s }, true)
    | .null => (f, true)
    | _ => (f, false)
  else (f, true)

/-- Decode an object's members into an existing `GeneratedFile` in document
order (later duplicates overwrite), continuing past field type errors as Go
does; second component: no error occurred. -/
def decodeFileFieldsInto (f : GeneratedFile) : List (String × Json) → GeneratedFile × Bool
  | [] => (f, true)
  | (k, v) :: rest =>
    let r := setFieldInto f k v
    let r2 := decodeFileFieldsInto r.1 rest
    (r2.1, r.2 && r2.2)

/-- Decode one JSON value into an existing `GeneratedFile` cell: objects merge
field-wise, `null` is a no-op, anything else is a type error leaving the cell
unchanged. -/
def decodeFileInto (f : GeneratedFile) : Json → GeneratedFile × Bool
  | .null => (f, true)
  | .obj kvs => decodeFileFieldsInto f kvs
  | _ => (f, false)

/-- `json.Unmarshal` into a freshly declared `GeneratedFile` (the generation
flow's `singleFile`), seen all-or-nothing: the caller discards the value
whenever an error is reported, and the target is fresh, so the partial state
is unobservable. -/
def decodeFile : Json → Option GeneratedFile
  | .null => some zeroFile
  | .obj kvs =>
    if (decodeFileFieldsInto zeroFile kvs).2 then some (decodeFileFieldsInto zeroFile kvs).1
    else none
  | _ => none

/-- The state of a Go `[]GeneratedFile` variable across `Unmarshal` calls:
`cells` is the backing content written so far, `len` the current length
(`cells.take len` is the visible slice). -/
structure SliceState where
  cells : List GeneratedFile
  len : Nat
deriving DecidableEq

/-- The visible slice of a `SliceState`. -/
def visible (st : SliceState) : List GeneratedFile := st.cells.take st.len

/-- Decode array elements into the backing cells: element `i` decodes into the
previously written cell `i` when one exists, else into a zero cell. -/
def decodeElemsInto : List GeneratedFile → List Json → List GeneratedFile × Bool
  | _, [] => ([], true)
  | cells, x :: xs =>
    let r := decodeFileInto (cells.headD zeroFile) x
    let rest := decodeElemsInto (cells.drop 1) xs
    (r.1 :: rest.1, r.2 && rest.2)

/-- `json.Unmarshal` of one JSON value into a `[]GeneratedFile` variable in
state `st`: `null` nils the slice; an empty array installs a fresh empty
slice; a non-empty array decodes element-wise into the existing cells, sets
the length to the incoming length, and keeps stale cells beyond it; any other
value is a type error leaving the slice untouched. Second component: no error
was recorded. -/
def decodeFilesInto (st : SliceState) : Json → SliceState × Bool
  | .null => (⟨[], 0⟩, true)
  | .arr [] => (⟨[], 0⟩, true)
  | .arr xs =>
    let r := decodeElemsInto st.cells xs
    (⟨r.1 ++ st.cells.drop xs.length, xs.length⟩, r.2)
  | _ => (st, false)

/-- `json.Unmarshal` into a freshly declared nil `[]GeneratedFile`, seen
all-or-nothing (callers that decode into a fresh slice discard it on error). -/
def decodeFiles (v : Json) : Option (List GeneratedFile) :=
  if (decodeFilesInto ⟨[], 0⟩ v).2 then some (visible (decodeFilesInto ⟨[], 0⟩ v).1)
  else none

/-- `json.Unmarshal` into `map[string]json.RawMessage` (`null` yields the nil
map); the member list is kept, lookups taking the last occurrence as Go's map
construction does. -/
def decodeObjMap : Json → Option (List (String × Json))
  | .null => some []
  | .obj kvs => some kvs
  | _ => none

/-- Lookup with Go-map semantics over a member list: the last binding for an
exactly-equal key wins. -/
def lookupLast : List (String × Json) → String → Option Json
  | [], _ => none
  | (k2, v) :: rest, k =>
    match lookupLast rest k with
    | some r => some r
    | none => if k2 = k then some v else none

/-! ### The two normalization flows -/

/-- The fence-stripping step shared by both flows
(`src/ai/generator.go:160-163`, `src/internal/ai/GenerateCodeChanges.go:56-59`):
trim space, trim a leading ` ```json `, trim a trailing ` ``` `, trim space. -/
def cleanFences (s : String) : String :=
  goTrimSpace (goTrimSfx (goTrimPfx (goTrimSpace s) "```json") "```")

/-- Strategy 1 of both flows as seen from a fresh slice: `json.Unmarshal` of
the cleaned text into a nil `[]GeneratedFile`, all-or-nothing view. -/
def decodeFilesText (s : String) : Option (List GeneratedFile) :=
  (parseJson s).bind decodeFiles

/-- Strategy 2 of the generation flow: `json.Unmarshal` of the cleaned text
into a fresh single `GeneratedFile`. -/
def decodeFileText (s : String) : Option GeneratedFile :=
  (parseJson s).bind decodeFile

/-- Wrapper keys tried by the generation flow (`src/ai/generator.go:187`). -/
def genKeys : List String := ["files", "result", "code", "data", "output"]

/-- Wrapper keys tried by the refinement flow
(`src/internal/ai/GenerateCodeChanges.go:62`). -/
def refineKeys : List String := ["files", "changes", "result", "code", "output"]

/-- The generation flow's wrapped-key loop (`src/ai/generator.go:187-208`)
over the decoded wrapper members `kvs`, threading the `generatedFiles` slice
state: each present key's raw value is `Unmarshal`led into the slice — which
mutates it even on failure — and the loop breaks on the first successful
**non-empty** decode, returning its visible slice; otherwise the final state
is kept. -/
def genWrappedLoop (kvs : List (String × Json)) :
    SliceState → List String → Option (String × List GeneratedFile) × SliceState
  | st, [] => (none, st)
  | st, k :: ks =>
    match lookupLast kvs k with
    | none => genWrappedLoop kvs st ks
    | some v =>
      let r := decodeFilesInto st v
      if r.2 ∧ r.1.len > 0 then (some (k, visible r.1), r.1)
      else genWrappedLoop kvs r.1 ks

/-- The refinement flow's wrapped-key loop
(`src/internal/ai/GenerateCodeChanges.go:62-76`): as the generation flow's,
but any successful decode — an empty array included — breaks the loop. -/
def refineWrappedLoop (kvs : List (String × Json)) :
    SliceState → List String → Option (String × List GeneratedFile) × SliceState
  | st, [] => (none, st)
  | st, k :: ks =>
    match lookupLast kvs k with
    | none => refineWrappedLoop kvs st ks
    | some v =>
      let r := decodeFilesInto st v
      if r.2 then (some (k, visible r.1), r.1)
      else refineWrappedLoop kvs r.1 ks

/-- A key of the generation flow's loop that misses while leaving the slice
state empty: absent, a non-array non-null value (type error, slice untouched),
or `null` / an empty array (successful length-0 decode, so the loop continues
with a freshly emptied slice). A non-empty array value either wins or mutates
the slice. -/
def genMissKeepEmpty (kvs : List (String × Json)) (k : String) : Bool :=
  match lookupLast kvs k with
  | none => true
  | some v =>
    match v with
    | .null => true
    | .arr [] => true
    | .arr (_ :: _) => false
    | _ => true

/-- A key of the refinement flow's loop that misses while leaving the slice
state empty: absent, or a non-array non-null value (type error, slice
untouched). `null` and any array value break the refinement loop instead. -/
def refineMiss (kvs : List (String × Json)) (k : String) : Bool :=
  match lookupLast kvs k with
  | none => true
  | some v =>
    match v with
    | .null => false
    | .arr _ => false
    | _ => true

/-- Which strategy of the generation flow's cascade produced the result. -/
inductive GenStrategy where
  | arrayOf (fs : List GeneratedFile)
  | singleObj (f : GeneratedFile)
  | wrapped (key : String) (fs : List GeneratedFile)
  | parseFailed
deriving DecidableEq

/-- The generation flow's parse cascade (`src/ai/generator.go:158-218`) with
the `generatedFiles` slice state threaded through: direct array decode (which
can leave a partially-decoded slice on failure), then single object into a
fresh struct (whose success replaces the slice wholesale), then the wrapped-key
loop starting from the possibly-mutated slice. Returns the winning strategy
and the final visible `generatedFiles` slice. -/
def genParseSt (llmOutput : String) : GenStrategy × List GeneratedFile :=
  match parseJson (cleanFences llmOutput) with
  | none => (.parseFailed, [])
  | some v =>
    if (decodeFilesInto ⟨[], 0⟩ v).2 then
      (.arrayOf (visible (decodeFilesInto ⟨[], 0⟩ v).1),
        visible (decodeFilesInto ⟨[], 0⟩ v).1)
    else
      match decodeFile v with
      | some f => (.singleObj f, [f])
      | none =>
        match decodeObjMap v with
        | none => (.parseFailed, visible (decodeFilesInto ⟨[], 0⟩ v).1)
        | some kvs =>
          match genWrappedLoop kvs (decodeFilesInto ⟨[], 0⟩ v).1 genKeys with
          | (some hit, _) => (.wrapped hit.1 hit.2, hit.2)
          | (none, stF) => (.parseFailed, visible stF)

/-- The winning strategy of the generation flow's cascade. -/
def genParse (llmOutput : String) : GenStrategy := (genParseSt llmOutput).1

/-- The `generatedFiles` slice as it stands after the cascade — `[]` when the
text is not valid JSON, but possibly a non-empty partially-decoded remnant
when a decode failed after mutating the slice (the code does not return at its
parse-failure logging, `src/ai/generator.go:210-216`). -/
def genFiles (llmOutput : String) : List GeneratedFile := (genParseSt llmOutput).2

/-- Errors `GenerateSiteAndStore` can return after a completion response is in
hand (`src/ai/generator.go:145-236`). -/
inductive GenError where
  | completionFailed (msg : String)
  | emptyResponse
  | noFiles
deriving DecidableEq

/-- The tail of `GenerateSiteAndStore` (`src/ai/generator.go:155-288`): parse
the output, fail with the zero-files error when the final slice is empty, and
otherwise succeed with the fresh project identifier and that slice (which is
what the commented-in persistence layer would consume). -/
def generateSiteResult (projectID : String) (llmOutput : String) :
    Except GenError (String × List GeneratedFile) :=
  let fs := genFiles llmOutput
  if fs.length = 0 then .error .noFiles else .ok (projectID, fs)

/-- The parsing tail of `GenerateCodeChanges`
(`src/internal/ai/GenerateCodeChanges.go:51-90`): direct array decode into the
fresh `changedFiles` slice, then the wrapped-key loop threading that slice's
(possibly mutated) state, and a parse error wrapping the original array error
when nothing succeeds. -/
def refineParse (llmOutput : String) : Except String (List GeneratedFile) :=
  match parseJson (cleanFences llmOutput) with
  | none => .error "failed to parse LLM JSON output for code changes"
  | some v =>
    if (decodeFilesInto ⟨[], 0⟩ v).2 then .ok (visible (decodeFilesInto ⟨[], 0⟩ v).1)
    else
      match decodeObjMap v with
      | none => .error "failed to parse LLM JSON output for code changes"
      | some kvs =>
        match (refineWrappedLoop kvs (decodeFilesInto ⟨[], 0⟩ v).1 refineKeys).1 with
        | some hit => .ok hit.2
        | none => .error "failed to parse LLM JSON output for code changes"


/-! ### Transient-error classification and the retry-once completion calls -/

/-- An error from the completion service: its rendered message, and the HTTP
status code when the error is an `openai.APIError` (Go's `errors.As` branch in
`utils.ShouldRetry`); `none` for plain errors. -/
structure SvcError where
  msg : String
  apiStatus : Option Nat
deriving DecidableEq

/-- The message-substring part of both classifiers: lowercase the message and
look for the recognized transient phrases
(`src/ai/generator.go:529-553`, `src/unnamed/part_004:12-28`). -/
def shouldRetryMsg (m : String) : Bool :=
  let errMsg := goToLower m
  goContains errMsg "rate limit" ||
  goContains errMsg "500 internal server error" ||
  goContains errMsg "502 bad gateway" ||
  goContains errMsg "503 service unavailable" ||
  goContains errMsg "504 gateway timeout" ||
  goContains errMsg "timeout" ||
  goContains errMsg "connection reset by peer" ||
  goContains errMsg "context deadline exceeded"

/-- `shouldRetry` from `src/ai/generator.go:529-553`: message phrases only
(its `openai.APIError` branch is commented out in the source). -/
def shouldRetry (e : SvcError) : Bool := shouldRetryMsg e.msg

/-- `utils.ShouldRetry` from `src/unnamed/part_004:12-36`: the same phrases,
plus 5xx / 429 when the error carries an HTTP status. -/
def ShouldRetry (e : SvcError) : Bool :=
  shouldRetryMsg e.msg ||
    (match e.apiStatus with
     | some c => decide (c ≥ 500) || c = 429
     | none => false)

/-- The strict structured-response mode
(`openai.ChatCompletionResponseFormatTypeJSONObject`). -/
inductive RespFormat where
  | jsonObject
deriving DecidableEq

/-- One chat message (role, content). -/
structure ChatMessage where
  role : String
  content : String
deriving DecidableEq

/-- The request fields the source sets on `openai.ChatCompletionRequest`.
Temperature is kept in tenths to stay in integers. -/
structure ChatRequest where
  model : String
  messages : List ChatMessage
  responseFormat : Option RespFormat
  maxTokens : Option Nat
  temperatureTenths : Nat
deriving DecidableEq

/-- A completion response, reduced to its choices' message contents. -/
structure ChatResponse where
  choices : List String
deriving DecidableEq

/-- System prompt of the generation flow (`src/ai/generator.go:114`). -/
def genSysPrompt : String :=
  "You are a helpful AI assistant that generates code based on user prompts and specific formatting instructions."

/-- The generation prompt built from `initialGenerationPromptTemplate`
(`src/ai/generator.go:51-96,104`). The long instruction text is abbreviated to
its opening words: no verified property depends on its content, only on the
same prompt being reused verbatim on the retry. -/
def genFullPrompt (userPrompt : String) : String :=
  "You are a full-stack site generator AI. A user has submitted the following project description: "
    ++ userPrompt

/-- System prompt of the refinement flow
(`src/unnamed/part_002`, `GetSiteCodeChangePrompt`), abbreviated as above. -/
def ragSysPrompt : String :=
  "You are a code assistant helping to update an existing project. Respond ONLY with the JSON array containing modified or new files as requested."

/-- The refinement prompt embedding the instruction and the context files
(`src/unnamed/part_002`), abbreviated as above. -/
def ragFullPrompt (userQuery contextFiles : String) : String :=
  "Users instruction: " ++ userQuery ++ " Relevant existing files: " ++ contextFiles

/-- The generation flow's first completion request
(`src/ai/generator.go:109-123`): `GPT4oLatest`, no response format, no token
cap. -/
def genRequest (userPrompt : String) : ChatRequest :=
  { model := "chatgpt-4o-latest"
    messages := [⟨"system", genSysPrompt⟩, ⟨"user", genFullPrompt userPrompt⟩]
    responseFormat := none
    maxTokens := none
    temperatureTenths := 3 }

/-- The generation flow's retry request (`src/ai/generator.go:130-141`):
`GPT4o`, the strict JSON-object response format, a 4096-token cap, the same
messages. -/
def genRetryRequest (userPrompt : String) : ChatRequest :=
  { model := "gpt-4o"
    messages := [⟨"system", genSysPrompt⟩, ⟨"user", genFullPrompt userPrompt⟩]
    responseFormat := some .jsonObject
    maxTokens := some 4096
    temperatureTenths := 3 }

/-- The refinement flow's (only) request
(`src/internal/ai/GenerateCodeChanges.go:21-33`): `GPT4o`, strict JSON-object
response format from the outset. -/
def refineRequest (userQuery contextFiles : String) : ChatRequest :=
  { model := "gpt-4o"
    messages := [⟨"system", ragSysPrompt⟩, ⟨"user", ragFullPrompt userQuery contextFiles⟩]
    responseFormat := some .jsonObject
    maxTokens := some 4096
    temperatureTenths := 3 }

/-- A trace of the completion calls one flow issued: the requests in order and
the sleeps (in seconds) taken between them. -/
structure CallTrace where
  calls : List ChatRequest
  sleeps : List Nat
deriving DecidableEq

/-- The generation flow's completion-call region with its retry-once logic
(`src/ai/generator.go:109-147`), over an arbitrary completion service `svc`
(call index → request → outcome): call once; on an error classified transient
by `shouldRetry`, sleep 2 seconds and reissue exactly once with the escalated
retry request, whose outcome — success or failure — is final. -/
def genCompletion (userPrompt : String)
    (svc : Nat → ChatRequest → Except SvcError ChatResponse) :
    CallTrace × Except SvcError ChatResponse :=
  let req0 := genRequest userPrompt
  match svc 0 req0 with
  | .ok r => (⟨[req0], []⟩, .ok r)
  | .error e =>
    if shouldRetry e then
      let req1 := genRetryRequest userPrompt
      (⟨[req0, req1], [2]⟩, svc 1 req1)
    else (⟨[req0], []⟩, .error e)

/-- The refinement flow's completion-call region
(`src/internal/ai/GenerateCodeChanges.go:35-44`): same retry-once shape, gated
by `utils.ShouldRetry`, reissuing the identical (already strict) request after
a 2-second sleep. -/
def refineCompletion (userQuery contextFiles : String)
    (svc : Nat → ChatRequest → Except SvcError ChatResponse) :
    CallTrace × Except SvcError ChatResponse :=
  let req := refineRequest userQuery contextFiles
  match svc 0 req with
  | .ok r => (⟨[req], []⟩, .ok r)
  | .error e =>
    if ShouldRetry e then (⟨[req, req], [2]⟩, svc 1 req)
    else (⟨[req], []⟩, .error e)

/-! ### Deployment: file materialization paths and the stage pipeline -/

/-- Lexical path cleaning, component by component: the core loop of Go's
`filepath.Clean` for slash-separated paths. `".."` pops the last kept
component; on a rooted path a surplus `".."` is dropped, on a relative one it
is kept. -/
def cleanStack (rooted : Bool) (acc : List String) : List String → List String
  | [] => acc.reverse
  | c :: rest =>
    if c = "" ∨ c = "." then cleanStack rooted acc rest
    else if c = ".." then
      match acc with
      | [] => if rooted then cleanStack rooted [] rest else cleanStack rooted [".."] rest
      | top :: accT =>
        if top = ".." then cleanStack rooted (c :: acc) rest
        else cleanStack rooted accT rest
    else cleanStack rooted (c :: acc) rest

/-- Go `path/filepath.Clean` for slash-separated paths. -/
def goPathClean (p : String) : String :=
  if p = "" then "."
  else
    let rooted := goHasPfx p "/"
    let comps := cleanStack rooted [] ((splitOnCharL '/' p.data).map String.mk)
    let joined := joinSlash comps
    if rooted then "/" ++ joined
    else if joined = "" then "." else joined

/-- Go `filepath.Join` on two elements: join with a separator, then `Clean`
(empty elements are skipped, as in Go). -/
def goJoin (a b : String) : String :=
  if a = "" then (if b = "" then "" else goPathClean b)
  else if b = "" then goPathClean a
  else goPathClean (a ++ "/" ++ b)

/-- The write loop of `DeployFiles` (`src/internal/sui/walrus/deploy.go:40-49`)
computes each target as `filepath.Join(tempDir, name)` with **no** validation
that the target stays under `tempDir`; this function is that loop's list of
resolved write targets, in iteration order. -/
def writeTargets (tempDir : String) (files : List (String × String)) : List String :=
  files.map (fun f => goJoin tempDir f.1)

/-- `target` lies at or below `root` (lexically). -/
def isWithin (root target : String) : Bool :=
  goHasPfx target (root ++ "/") || target = root

/-- Option 3 of `extractCID` (`src/internal/sui/walrus/deploy.go:123-135`):
take the last whitespace-separated token of the last line and accept it only
with a `bafy`/`Qm` prefix. -/
def cidLastResort (output : String) : String :=
  let lines := goSplitLines (goTrimSpace output)
  match lines.getLast? with
  | none => ""
  | some lastLine =>
    match (goFields lastLine).getLast? with
    | none => ""
    | some cand =>
      if goHasPfx cand "bafy" || goHasPfx cand "Qm" then cand else ""

/-- `extractCID` (`src/internal/sui/walrus/deploy.go:105-141`): (1) if the
whole output starts with `"Published: "`, the trimmed remainder; (2) else the
first `ipfs://`-prefixed token; (3) else the last-line heuristic; `""` marks
failure. -/
def extractCID (output : String) : String :=
  if goHasPfx output "Published: " then
    goTrimSpace (goTrimPfx output "Published: ")
  else
    match goIndexOf output "ipfs://" with
    | some idx =>
      let line : String := ⟨output.data.drop idx⟩
      match goFields line with
      | p0 :: _ => goTrimPfx p0 "ipfs://"
      | [] => cidLastResort output
    | none => cidLastResort output

/-- The observable outcome of one external stage invocation: `exitErr` is
`some msg` for a non-zero exit (or spawn failure), with the captured output
streams. -/
structure StageResult where
  exitErr : Option String
  stdout : String
  stderr : String
deriving DecidableEq

/-- The two stages `DeployFiles` runs, in declaration order. -/
inductive StageName where
  | siteBuilder
  | walrusPublish
deriving DecidableEq

/-- Errors of the stage-running tail of `DeployFiles`. -/
inductive DeployErr where
  | stageFailed (stage : StageName) (errMsg stderr : String)
  | cidNotFound (stdout : String)
deriving DecidableEq

/-- The stage-sequencing tail of `DeployFiles`
(`src/internal/sui/walrus/deploy.go:56-101`) over an environment `env` giving
each stage's outcome: run `site-builder`; on failure return a stage error
carrying its stderr without touching `walrus publish`; otherwise run
`walrus publish`, likewise; then scrape the identifier from the publish
stdout, failing if extraction yields the empty marker. The second component
lists the stages actually invoked, in order. -/
def runStages (env : StageName → StageResult) :
    Except DeployErr String × List StageName :=
  let b := env .siteBuilder
  match b.exitErr with
  | some e => (.error (.stageFailed .siteBuilder e b.stderr), [.siteBuilder])
  | none =>
    let p := env .walrusPublish
    match p.exitErr with
    | some e => (.error (.stageFailed .walrusPublish e p.stderr), [.siteBuilder, .walrusPublish])
    | none =>
      let cid := extractCID p.stdout
      if cid = "" then (.error (.cidNotFound p.stdout), [.siteBuilder, .walrusPublish])
      else (.ok cid, [.siteBuilder, .walrusPublish])

/-- The well-typedness condition under which `json.Unmarshal` into a
`GeneratedFile` succeeds on an object: every member whose key names a
descriptor field (case-insensitively) holds a string or `null`. -/
def FileFieldsOk (kvs : List (String × Json)) : Prop :=
  ∀ p ∈ kvs,
    (goToLower p.1 = "filename" ∨ goToLower p.1 = "type" ∨ goToLower p.1 = "content") →
    (p.2 = Json.null ∨ ∃ s, p.2 = Json.str s)

/-- A stage environment in which `site-builder` exits non-zero and
`walrus publish` would succeed: used to exercise the pipeline's
fail-stop behavior. -/
def envBuildFail : StageName → StageResult := fun st =>
  match st with
  | .siteBuilder => ⟨some "exit status 1", "", "site-builder: missing config"⟩
  | .walrusPublish => ⟨none, "Published: bafyX", ""⟩

/-- A completion service whose first call fails with a rate-limit error and
whose reissued call fails with a 503: used to exercise the retry-once logic. -/
def svcFailTwice : Nat → ChatRequest → Except SvcError ChatResponse := fun n _ =>
  if n = 0 then .error ⟨"429 rate limit exceeded", some 429⟩
  else .error ⟨"503 service unavailable", some 503⟩

/-! ### Helper lemmas -/

theorem str_data_append (a b : String) : (a ++ b).data = a.data ++ b.data := by
  cases a; cases b; rfl

theorem goHasPfxL_self_append (p s : List Char) : goHasPfxL (p ++ s) p = true := by
  induction p with
  | nil => cases s <;> rfl
  | cons c cs ih => simp [goHasPfxL, ih]

theorem goHasPfx_self_append (p s : String) : goHasPfx (p ++ s) p = true := by
  unfold goHasPfx
  rw [str_data_append]
  exact goHasPfxL_self_append p.data s.data

theorem goTrimPfx_self_append (p s : String) : goTrimPfx (p ++ s) p = s := by
  cases s with
  | mk d =>
    unfold goTrimPfx
    rw [goHasPfx_self_append]
    simp only [if_true]
    rw [str_data_append]
    simp [List.drop_left]

theorem goHasPfxL_map (f : Char → Char) :
    ∀ s p : List Char, goHasPfxL s p = true → goHasPfxL (s.map f) (p.map f) = true := by
  intro s
  induction s with
  | nil =>
    intro p h
    cases p with
    | nil => rfl
    | cons d ds => simp [goHasPfxL] at h
  | cons c cs ih =>
    intro p h
    cases p with
    | nil => rfl
    | cons d ds =>
      simp only [goHasPfxL, Bool.and_eq_true, decide_eq_true_eq] at h
      simp only [List.map_cons, goHasPfxL, Bool.and_eq_true, decide_eq_true_eq]
      exact ⟨by rw [h.1], ih ds h.2⟩

theorem goContainsL_map (f : Char → Char) :
    ∀ s p : List Char, goContainsL s p = true → goContainsL (s.map f) (p.map f) = true := by
  intro s
  induction s with
  | nil =>
    intro p h
    simp only [goContainsL, List.isEmpty_eq_true] at h
    subst h
    rfl
  | cons c cs ih =>
    intro p h
    simp only [goContainsL, Bool.or_eq_true] at h ⊢
    rcases h with h | h
    · exact Or.inl (goHasPfxL_map f (c :: cs) p h)
    · exact Or.inr (ih p h)

/-- If a raw message contains a phrase that lowering leaves unchanged, the
lowered message still contains it. -/
theorem goContains_lower (s sub : String) (hsub : goToLower sub = sub)
    (h : goContains s sub = true) : goContains (goToLower s) sub = true := by
  have h2 := goContainsL_map toLowerCh s.data sub.data h
  unfold goContains goToLower
  have hdata : sub.data.map toLowerCh = sub.data := by
    have := congrArg String.data hsub
    simpa [goToLower] using this
  simpa [hdata] using h2

theorem setFieldInto_ok (f : GeneratedFile) (k : String) (v : Json)
    (h : (goToLower k = "filename" ∨ goToLower k = "type" ∨ goToLower k = "content") →
      (v = Json.null ∨ ∃ s, v = Json.str s)) :
    (setFieldInto f k v).2 = true := by
  unfold setFieldInto
  by_cases h1 : goToLower k = "filename"
  · rcases h (Or.inl h1) with hv | ⟨s, hv⟩ <;> subst hv <;> simp [h1]
  · by_cases h2 : goToLower k = "type"
    · rcases h (Or.inr (Or.inl h2)) with hv | ⟨s, hv⟩ <;> subst hv <;> simp [h1, h2]
    · by_cases h3 : goToLower k = "content"
      · rcases h (Or.inr (Or.inr h3)) with hv | ⟨s, hv⟩ <;> subst hv <;> simp [h1, h2, h3]
      · simp [h1, h2, h3]

theorem decodeFileFieldsInto_ok :
    ∀ kvs : List (String × Json), FileFieldsOk kvs →
      ∀ f : GeneratedFile, (decodeFileFieldsInto f kvs).2 = true := by
  intro kvs
  induction kvs with
  | nil => intro _ f; rfl
  | cons p ps ih =>
    intro hok f
    obtain ⟨k, v⟩ := p
    have h1 := setFieldInto_ok f k v (hok (k, v) (List.mem_cons_self _ _))
    have hps : FileFieldsOk ps := fun q hq => hok q (List.mem_cons_of_mem _ hq)
    simp [decodeFileFieldsInto, h1, ih hps]

theorem decodeElemsInto_length :
    ∀ (xs : List Json) (cells : List GeneratedFile),
      (decodeElemsInto cells xs).1.length = xs.length := by
  intro xs
  induction xs with
  | nil => intro cells; rfl
  | cons x xs2 ih => intro cells; simp [decodeElemsInto, ih]

theorem decodeFilesInto_obj (st : SliceState) (kvs : List (String × Json)) :
    decodeFilesInto st (Json.obj kvs) = (st, false) := rfl

/-- A clean decode — `Unmarshal` of `v` into a fresh nil slice succeeding with
`fs` — in terms of the slice-state decoder: no error, visible slice `fs`,
length that of `fs`. -/
theorem decodeFilesInto_of_clean (v : Json) (fs : List GeneratedFile)
    (h : decodeFiles v = some fs) :
    (decodeFilesInto ⟨[], 0⟩ v).2 = true ∧ visible (decodeFilesInto ⟨[], 0⟩ v).1 = fs ∧
      (decodeFilesInto ⟨[], 0⟩ v).1.len = fs.length := by
  unfold decodeFiles at h
  split at h
  case isTrue hr =>
    injection h with h2
    refine ⟨hr, h2, ?_⟩
    rw [← h2]
    cases v with
    | null => rfl
    | arr xs =>
      cases xs with
      | nil => rfl
      | cons x xs2 =>
        simp [decodeFilesInto, visible, List.length_take, decodeElemsInto_length]
    | bool b => simp [decodeFilesInto] at hr
    | num r0 => simp [decodeFilesInto] at hr
    | str s0 => simp [decodeFilesInto] at hr
    | obj kvs => simp [decodeFilesInto] at hr
  case isFalse => exact absurd h (by simp)

/-- If every key before `k` misses while keeping the slice empty, and `k`'s
value decodes cleanly and non-emptily, the generation flow's wrapped loop
breaks at `k` with that clean decode. -/
theorem genWrappedLoop_clean (kvs : List (String × Json)) (k : String) (v : Json)
    (fs : List GeneratedFile) (hkv : lookupLast kvs k = some v)
    (hdec : decodeFiles v = some fs) (hne : fs ≠ []) :
    ∀ pre post : List String, (∀ k2 ∈ pre, genMissKeepEmpty kvs k2 = true) →
      (genWrappedLoop kvs ⟨[], 0⟩ (pre ++ k :: post)).1 = some (k, fs) := by
  obtain ⟨hok, hvis, hlen⟩ := decodeFilesInto_of_clean v fs hdec
  intro pre
  induction pre with
  | nil =>
    intro post _
    have hl : (decodeFilesInto ⟨[], 0⟩ v).1.len > 0 := by
      rw [hlen]
      exact List.length_pos.mpr hne
    simp [genWrappedLoop, hkv, hok, hl, hvis]
  | cons k2 ks ih =>
    intro post hmiss
    have h2 := hmiss k2 (List.mem_cons_self _ _)
    have hrest : ∀ x ∈ ks, genMissKeepEmpty kvs x = true :=
      fun x hx => hmiss x (List.mem_cons_of_mem _ hx)
    unfold genMissKeepEmpty at h2
    simp only [List.cons_append]
    cases hlk : lookupLast kvs k2 with
    | none =>
      simp [genWrappedLoop, hlk]
      exact ih post hrest
    | some v2 =>
      rw [hlk] at h2
      cases v2 with
      | null =>
        simp [genWrappedLoop, hlk, decodeFilesInto]
        exact ih post hrest
      | bool b =>
        simp [genWrappedLoop, hlk, decodeFilesInto]
        exact ih post hrest
      | num r0 =>
        simp [genWrappedLoop, hlk, decodeFilesInto]
        exact ih post hrest
      | str s0 =>
        simp [genWrappedLoop, hlk, decodeFilesInto]
        exact ih post hrest
      | obj kvs2 =>
        simp [genWrappedLoop, hlk, decodeFilesInto]
        exact ih post hrest
      | arr xs =>
        cases xs with
        | nil =>
          simp [genWrappedLoop, hlk, decodeFilesInto]
          exact ih post hrest
        | cons y ys => simp at h2

/-- If every key before `k` misses while keeping the slice empty, and `k`'s
value decodes cleanly (empty allowed), the refinement flow's wrapped loop
breaks at `k` with that clean decode. -/
theorem refineWrappedLoop_clean (kvs : List (String × Json)) (k : String) (v : Json)
    (fs : List GeneratedFile) (hkv : lookupLast kvs k = some v)
    (hdec : decodeFiles v = some fs) :
    ∀ pre post : List String, (∀ k2 ∈ pre, refineMiss kvs k2 = true) →
      (refineWrappedLoop kvs ⟨[], 0⟩ (pre ++ k :: post)).1 = some (k, fs) := by
  obtain ⟨hok, hvis, _⟩ := decodeFilesInto_of_clean v fs hdec
  intro pre
  induction pre with
  | nil =>
    intro post _
    simp [refineWrappedLoop, hkv, hok, hvis]
  | cons k2 ks ih =>
    intro post hmiss
    have h2 := hmiss k2 (List.mem_cons_self _ _)
    have hrest : ∀ x ∈ ks, refineMiss kvs x = true :=
      fun x hx => hmiss x (List.mem_cons_of_mem _ hx)
    unfold refineMiss at h2
    simp only [List.cons_append]
    cases hlk : lookupLast kvs k2 with
    | none =>
      simp [refineWrappedLoop, hlk]
      exact ih post hrest
    | some v2 =>
      rw [hlk] at h2
      cases v2 with
      | null => simp at h2
      | arr xs => simp at h2
      | bool b =>
        simp [refineWrappedLoop, hlk, decodeFilesInto]
        exact ih post hrest
      | num r0 =>
        simp [refineWrappedLoop, hlk, decodeFilesInto]
        exact ih post hrest
      | str s0 =>
        simp [refineWrappedLoop, hlk, decodeFilesInto]
        exact ih post hrest
      | obj kvs2 =>
        simp [refineWrappedLoop, hlk, decodeFilesInto]
        exact ih post hrest


/-! ### Sanity checks on the embedding (concrete evaluations) -/

example :
    decodeFilesText "[\x7b\"filename\":\"a\",\"type\":\"t\",\"content\":\"c\"\x7d]"
      = some [⟨"a", "t", "c"⟩] := by decide
example : decodeFilesText "null" = some [] := by decide
example : decodeFilesText "" = none := by decide
example : decodeFileText "\x7b\"files\":[]\x7d" = some ⟨"", "", ""⟩ := by decide
example : decodeFileText "\x7b\"filename\":true\x7d" = none := by decide
example : genFiles "```json\n[\x7b\"filename\":\"a\",\"type\":\"t\",\"content\":\"c\"\x7d]\n```"
      = [⟨"a", "t", "c"⟩] := by decide
example : extractCID "Published: bafyabc  " = "bafyabc" := by decide
example : extractCID "pinned at ipfs://Qm123 ok\nmore" = "Qm123" := by decide
example : extractCID "line one\nid Qm999" = "Qm999" := by decide
example : goPathClean "/tmp/walrus-deploy-1/../escape.txt" = "/tmp/escape.txt" := by decide
example : ShouldRetry ⟨"boom", some 503⟩ = true := by decide

/-! ### Claim C2 -/

/-- Claim C2 (code bug): the spec requires materialization to fail with
`PathEscape` before writing any file outside the workspace root, but the write
loop of `DeployFiles` has no such check: on the FileSet
`[("a/b.txt", _), ("../escape.txt", _)]` it resolves the second target, via
`filepath.Join`, to `/tmp/escape.txt`, which lies outside the root
`/tmp/walrus-deploy-1`, and nothing in the function can produce a path error. -/
theorem c2_pathescape_missing :
    writeTargets "/tmp/walrus-deploy-1" [("a/b.txt", "x"), ("../escape.txt", "y")]
      = ["/tmp/walrus-deploy-1/a/b.txt", "/tmp/escape.txt"] ∧
    isWithin "/tmp/walrus-deploy-1" "/tmp/escape.txt" = false := by decide

/-! ### Claim C3 -/

/-- Claim C3, counterexample: `extractCID` matches its marker against the
whole output, not line by line, and its marker is `"Published: "` rather than
`"New site object ID: "`; on an output whose marker line follows a noise line,
and on the claim's own example line, it yields the empty (failure) marker
instead of the identifier. -/
theorem c3_marker_counterexample :
    extractCID "site build ok\nPublished: 0xabc123" = "" ∧
    extractCID "New site object ID: 0xabc123" = "" ∧
    ("" : String) ≠ "0xabc123" := by decide

/-- Claim C3, amended: the labeled-prefix strategy fires only when the entire
captured stdout begins with the literal marker `"Published: "`, and it then
returns the whole remainder of the output (not just the first line's suffix)
trimmed of surrounding whitespace; output with noise lines before the marker
is only recognized by the `ipfs://` or trailing `bafy`/`Qm` token heuristics. -/
theorem c3_marker_amended (s : String) :
    extractCID ("Published: " ++ s) = goTrimSpace s := by
  unfold extractCID
  rw [goHasPfx_self_append]
  simp only [if_true]
  rw [goTrimPfx_self_append]

/-! ### Claim C5 -/

/-- Claim C5, counterexample: in the generation flow a total parse failure is
not surfaced as a `ParseFailure` carrying the attempted strategies — the
function does not return at its parse-failure branch and instead falls through
to the zero-files check, returning the very same error an empty-but-valid
array produces. -/
theorem c5_parsefailure_counterexample :
    genParse "" = .parseFailed ∧
    genParse "[]" = .arrayOf [] ∧
    generateSiteResult "p1" "" = .error .noFiles ∧
    generateSiteResult "p1" "[]" = .error .noFiles := by decide

/-- Claim C5, amended: on the inputs `""` and `"not json at all"` every parse
strategy fails and neither flow returns a FileSet; the refinement flow fails
with its parse error (wrapping the array-strategy error), while the generation
flow surfaces the generic zero-files error, the individual strategy errors
being only logged. -/
theorem c5_parsefailure_amended :
    generateSiteResult "p1" "" = .error .noFiles ∧
    generateSiteResult "p1" "not json at all" = .error .noFiles ∧
    refineParse "" = .error "failed to parse LLM JSON output for code changes" ∧
    refineParse "not json at all"
      = .error "failed to parse LLM JSON output for code changes" := by decide

/-! ### Claim C8 -/

/-- Claim C8: when a pipeline stage exits non-zero, no later stage is ever
invoked and the returned error names the failing stage and carries its
captured stderr: if `site-builder` fails, the invocation trace is exactly
`[siteBuilder]` — `walrus publish` never runs — and the error is
`stageFailed siteBuilder` with the builder's stderr attached. -/
theorem c8_failstop (env : StageName → StageResult) (e : String)
    (h : (env .siteBuilder).exitErr = some e) :
    runStages env
      = (.error (.stageFailed .siteBuilder e (env .siteBuilder).stderr), [.siteBuilder]) ∧
    StageName.walrusPublish ∉ (runStages env).2 := by
  have h1 : runStages env
      = (.error (.stageFailed .siteBuilder e (env .siteBuilder).stderr), [.siteBuilder]) := by
    simp [runStages, h]
  refine ⟨h1, ?_⟩
  rw [h1]
  simp

/-- Claim C8, witness: the fail-stop theorem applied to a concrete environment
where `site-builder` exits with status 1. -/
theorem c8_failstop_witness :
    runStages envBuildFail
      = (.error (.stageFailed .siteBuilder "exit status 1" "site-builder: missing config"),
          [.siteBuilder]) ∧
    StageName.walrusPublish ∉ (runStages envBuildFail).2 :=
  c8_failstop envBuildFail "exit status 1" rfl

/-! ### Claim C9 -/

/-- Claim C9: `ShouldRetry` classifies as transient every error whose message
contains `"rate limit"`, `"503 service unavailable"`, or
`"context deadline exceeded"` (the message is lowercased first, and each of
those phrases is lowercase-invariant), and classifies a plain
authorization-denied error as permanent. -/
theorem c9_classifier (e : SvcError) :
    (goContains e.msg "rate limit" = true → ShouldRetry e = true) ∧
    (goContains e.msg "503 service unavailable" = true → ShouldRetry e = true) ∧
    (goContains e.msg "context deadline exceeded" = true → ShouldRetry e = true) ∧
    ShouldRetry ⟨"authorization denied", none⟩ = false := by
  refine ⟨?_, ?_, ?_, by decide⟩
  · intro h
    have h2 := goContains_lower e.msg "rate limit" (by decide) h
    simp [ShouldRetry, shouldRetryMsg, h2]
  · intro h
    have h2 := goContains_lower e.msg "503 service unavailable" (by decide) h
    simp [ShouldRetry, shouldRetryMsg, h2]
  · intro h
    have h2 := goContains_lower e.msg "context deadline exceeded" (by decide) h
    simp [ShouldRetry, shouldRetryMsg, h2]

/-- Claim C9, witness: the classifier theorem applied at concrete errors for
each recognized phrase and for the permanent counter-example. -/
theorem c9_classifier_witness :
    ShouldRetry ⟨"hit the rate limit now", none⟩ = true ∧
    ShouldRetry ⟨"got 503 service unavailable", none⟩ = true ∧
    ShouldRetry ⟨"context deadline exceeded", none⟩ = true ∧
    ShouldRetry ⟨"authorization denied", none⟩ = false :=
  ⟨(c9_classifier ⟨"hit the rate limit now", none⟩).1 (by decide),
   (c9_classifier ⟨"got 503 service unavailable", none⟩).2.1 (by decide),
   (c9_classifier ⟨"context deadline exceeded", none⟩).2.2.1 (by decide),
   (c9_classifier ⟨"authorization denied", none⟩).2.2.2⟩

/-! ### Claim C6 -/

/-- Claim C6: whenever the cleaned completion text (after fence stripping)
decodes as a JSON array of file descriptors, the generation flow's normalizer
returns exactly that sequence — same order, unchanged `filename`, `type`, and
`content` fields — via the direct-array strategy. -/
theorem c6_roundtrip_holds (s : String) (fs : List GeneratedFile)
    (h : decodeFilesText (cleanFences s) = some fs) :
    genParse s = .arrayOf fs ∧ genFiles s = fs := by
  unfold decodeFilesText at h
  cases hp : parseJson (cleanFences s) with
  | none => rw [hp] at h; exact absurd h (by simp)
  | some v =>
    rw [hp] at h
    have h2 : decodeFiles v = some fs := h
    have hr : (decodeFilesInto ⟨[], 0⟩ v).2 = true ∧
        visible (decodeFilesInto ⟨[], 0⟩ v).1 = fs := by
      unfold decodeFiles at h2
      split at h2
      case isTrue hrt => exact ⟨hrt, by injection h2⟩
      case isFalse => exact absurd h2 (by simp)
    constructor
    · unfold genParse genParseSt
      rw [hp]
      simp [hr.1, hr.2]
    · unfold genFiles genParseSt
      rw [hp]
      simp [hr.1, hr.2]

/-- Claim C6, witness: the round-trip theorem applied to a bare JSON array and
to the same array inside a ```json fence. -/
theorem c6_roundtrip_witness :
    genParse "[\x7b\"filename\":\"a\",\"type\":\"t\",\"content\":\"c\"\x7d]"
      = .arrayOf [⟨"a", "t", "c"⟩] ∧
    genFiles "```json\n[\x7b\"filename\":\"b\",\"type\":\"css\",\"content\":\"x\"\x7d,\x7b\"filename\":\"d\",\"type\":\"tsx\",\"content\":\"y\"\x7d]\n```"
      = [⟨"b", "css", "x"⟩, ⟨"d", "tsx", "y"⟩] :=
  ⟨(c6_roundtrip_holds _ _ (by decide)).1, (c6_roundtrip_holds _ _ (by decide)).2⟩

/-! ### Claim C7 -/

/-- Claim C7, counterexample: the generation operation CAN partially return.
On an array whose second element has a mistyped `filename`, the array decode
populates both elements and reports an error (`decodeFilesText` is `none`),
every strategy fails (`parseFailed`), yet the mutated two-element slice —
its second descriptor half-zeroed — passes the zero-files check and is
returned as a success. -/
theorem c7_partial_counterexample :
    decodeFilesText (cleanFences "[\x7b\"filename\":\"a\",\"type\":\"t\",\"content\":\"c\"\x7d,\x7b\"filename\":true\x7d]")
      = none ∧
    genParse "[\x7b\"filename\":\"a\",\"type\":\"t\",\"content\":\"c\"\x7d,\x7b\"filename\":true\x7d]"
      = .parseFailed ∧
    generateSiteResult "p1" "[\x7b\"filename\":\"a\",\"type\":\"t\",\"content\":\"c\"\x7d,\x7b\"filename\":true\x7d]"
      = .ok ("p1", [⟨"a", "t", "c"⟩, ⟨"", "", ""⟩]) := by decide

/-- Claim C7, amended: the generation operation fails with the zero-files
error whenever the final decoded slice is empty — in particular on every
total parse failure that left the slice untouched — and every success carries
the minted project identifier together with that non-empty final slice; but
the slice is not guaranteed complete: a failed array decode can leave a
non-empty partially-decoded remnant that is returned as a success. -/
theorem c7_nonempty_or_error (pid llmOutput : String) :
    (genFiles llmOutput = [] → generateSiteResult pid llmOutput = .error .noFiles) ∧
    (∀ r, generateSiteResult pid llmOutput = .ok r →
      r.1 = pid ∧ r.2 = genFiles llmOutput ∧ r.2 ≠ []) := by
  constructor
  · intro h
    simp [generateSiteResult, h]
  · intro r h
    simp only [generateSiteResult] at h
    split at h
    · exact absurd h (by simp)
    · rename_i he
      injection h with h2
      subst h2
      refine ⟨rfl, rfl, fun hnil => he ?_⟩
      have hnil2 : genFiles llmOutput = [] := hnil
      rw [hnil2]
      rfl

/-- Claim C7, witness: the theorem applied to a parseable-but-fileless output
(a bare JSON string) and, for the success side, to a one-file array. -/
theorem c7_nonempty_witness :
    generateSiteResult "p1" "\"just prose\"" = .error .noFiles ∧
    ([⟨"a", "t", "c"⟩] : List GeneratedFile) ≠ [] :=
  ⟨(c7_nonempty_or_error "p1" "\"just prose\"").1 (by decide),
   ((c7_nonempty_or_error "p1" "[\x7b\"filename\":\"a\",\"type\":\"t\",\"content\":\"c\"\x7d]").2
      ("p1", [⟨"a", "t", "c"⟩]) (by decide)).2.2⟩

/-! ### Claim C10 -/

/-- Claim C10, counterexample: not every valid JSON object is captured by the
single-object strategy — an object giving a descriptor field a non-string
value (here `"filename": true`) makes the single-object decode fail, so the
wrapped-object strategy IS reached and wins via its `"files"` key. -/
theorem c10_singleobj_counterexample :
    ((parseJson (cleanFences "\x7b\"filename\":true,\"files\":[\x7b\"filename\":\"a\",\"type\":\"t\",\"content\":\"c\"\x7d]\x7d")).bind
        decodeObjMap).isSome = true ∧
    decodeFileText (cleanFences "\x7b\"filename\":true,\"files\":[\x7b\"filename\":\"a\",\"type\":\"t\",\"content\":\"c\"\x7d]\x7d")
      = none ∧
    genParse "\x7b\"filename\":true,\"files\":[\x7b\"filename\":\"a\",\"type\":\"t\",\"content\":\"c\"\x7d]\x7d"
      = .wrapped "files" [⟨"a", "t", "c"⟩] := by decide

/-- Claim C10, amended: in the generation flow, every cleaned response text
that parses as a JSON object whose descriptor-named members
(`filename`/`type`/`content`, matched case-insensitively) hold strings or
`null` — in particular every wrapper object such as `\x7b"files": [...]\x7d`,
whose keys name no descriptor field — is consumed by the single-object
strategy, with missing fields left as empty strings, so the wrapped-object
strategy is not reached for such inputs. -/
theorem c10_singleobj_amended (s : String) (kvs : List (String × Json))
    (hp : parseJson (cleanFences s) = some (Json.obj kvs))
    (hok : FileFieldsOk kvs) :
    ∃ f, decodeFile (Json.obj kvs) = some f ∧ genParse s = .singleObj f ∧ genFiles s = [f] := by
  have hfield := decodeFileFieldsInto_ok kvs hok zeroFile
  have hdf : decodeFile (Json.obj kvs) = some (decodeFileFieldsInto zeroFile kvs).1 := by
    simp [decodeFile, hfield]
  refine ⟨_, hdf, ?_, ?_⟩
  · unfold genParse genParseSt
    rw [hp]
    simp [decodeFilesInto_obj, hdf]
  · unfold genFiles genParseSt
    rw [hp]
    simp [decodeFilesInto_obj, hdf]

/-- Claim C10, witness: the amended theorem applied to the wrapper-like object
`\x7b"filename": null\x7d`, which the single-object strategy consumes as the
all-empty descriptor. -/
theorem c10_singleobj_witness :
    genParse "\x7b\"filename\":null\x7d" = .singleObj ⟨"", "", ""⟩ ∧
    genFiles "\x7b\"filename\":null\x7d" = [⟨"", "", ""⟩] := by
  obtain ⟨f, hdf, hg, hgf⟩ :=
    c10_singleobj_amended "\x7b\"filename\":null\x7d" [("filename", Json.null)] rfl
      (by
        intro p hp hm
        simp only [List.mem_singleton] at hp
        subst hp
        exact Or.inl rfl)
  have he : decodeFile (Json.obj [("filename", Json.null)]) = some ⟨"", "", ""⟩ := by decide
  injection (hdf.symm.trans he) with hf2
  rw [hf2] at hg hgf
  exact ⟨hg, hgf⟩

/-! ### Claim C1 -/

/-- Claim C1, counterexample: the claimed key order with non-emptiness does
not govern either flow as stated. In the generation flow a wrapper object
carrying a valid array under `"files"` never reaches the wrapped-key loop: the
single-object strategy consumes it into the all-empty one-descriptor set. In
the refinement flow the key list is `["files","changes","result","code",
"output"]` — so `"output"` beats the claimed `"data"`, which it does not try —
and an empty valid array under an earlier key wins over a non-empty one under
a later key. -/
theorem c1_precedence_counterexample :
    genFiles "\x7b\"files\":[\x7b\"filename\":\"a\",\"type\":\"t\",\"content\":\"c\"\x7d]\x7d"
      = [⟨"", "", ""⟩] ∧
    genFiles "\x7b\"files\":[\x7b\"filename\":\"a\",\"type\":\"t\",\"content\":\"c\"\x7d]\x7d"
      ≠ [⟨"a", "t", "c"⟩] ∧
    refineParse "\x7b\"data\":[\x7b\"filename\":\"a\",\"type\":\"t\",\"content\":\"c\"\x7d],\"output\":[\x7b\"filename\":\"b\",\"type\":\"t\",\"content\":\"c\"\x7d]\x7d"
      = .ok [⟨"b", "t", "c"⟩] ∧
    refineParse "\x7b\"files\":[],\"result\":[\x7b\"filename\":\"a\",\"type\":\"t\",\"content\":\"c\"\x7d]\x7d"
      = .ok [] := by decide

/-- Claim C1, amended: wrapped-key precedence is deterministic but flow
specific, and it governs the clean-decode regime. In the refinement flow, for
an input parsing as a JSON object, the earliest key of
`["files","changes","result","code","output"]` whose value decodes cleanly as
an array of descriptors — empty allowed — wins with that clean decode,
provided the keys tried before it miss without mutating the slice (absent, or
a non-array non-null value). In the generation flow the wrapped loop runs only
when the single-object decode also fails, and the earliest key of
`["files","result","code","data","output"]` whose value decodes cleanly and
**non-emptily** wins, the earlier keys missing with the slice left empty
(absent, non-array non-null, `null`, or an empty array). When an earlier key's
non-empty array value fails element-wise instead, Go's decoder keeps the
partially-decoded elements and the winning key's decode merges into them, as
the last conjunct shows concretely: the stale `"type":"J"` left by the failed
`"files"` decode survives into the `"changes"` result. -/
theorem c1_precedence_amended :
    (∀ (s : String) (kvs : List (String × Json)) (pre post : List String) (k : String)
        (v : Json) (fs : List GeneratedFile),
      parseJson (cleanFences s) = some (Json.obj kvs) →
      refineKeys = pre ++ k :: post →
      (∀ k2 ∈ pre, refineMiss kvs k2 = true) →
      lookupLast kvs k = some v →
      decodeFiles v = some fs →
      refineParse s = .ok fs) ∧
    (∀ (s : String) (kvs : List (String × Json)) (pre post : List String) (k : String)
        (v : Json) (fs : List GeneratedFile),
      parseJson (cleanFences s) = some (Json.obj kvs) →
      decodeFile (Json.obj kvs) = none →
      genKeys = pre ++ k :: post →
      (∀ k2 ∈ pre, genMissKeepEmpty kvs k2 = true) →
      lookupLast kvs k = some v →
      decodeFiles v = some fs →
      fs ≠ [] →
      genParse s = .wrapped k fs) ∧
    refineParse "\x7b\"files\":[\x7b\"filename\":true,\"type\":\"J\"\x7d],\"changes\":[\x7b\"filename\":\"x\"\x7d]\x7d"
      = .ok [⟨"x", "J", ""⟩] := by
  refine ⟨?_, ?_, by decide⟩
  · intro s kvs pre post k v fs hp hkeys hpre hkv hdec
    have hloop : (refineWrappedLoop kvs ⟨[], 0⟩ refineKeys).1 = some (k, fs) := by
      rw [hkeys]
      exact refineWrappedLoop_clean kvs k v fs hkv hdec pre post hpre
    unfold refineParse
    rw [hp]
    simp [decodeFilesInto_obj, decodeObjMap, hloop]
  · intro s kvs pre post k v fs hp hsingle hkeys hpre hkv hdec hne
    have hloop : (genWrappedLoop kvs ⟨[], 0⟩ genKeys).1 = some (k, fs) := by
      rw [hkeys]
      exact genWrappedLoop_clean kvs k v fs hkv hdec hne pre post hpre
    unfold genParse genParseSt
    rw [hp]
    cases hgl : genWrappedLoop kvs ⟨[], 0⟩ genKeys with
    | mk o st2 =>
      rw [hgl] at hloop
      simp only at hloop
      subst hloop
      simp [decodeFilesInto_obj, decodeObjMap, hsingle, hgl]

/-- Claim C1, witness: the amended precedence theorem applied concretely — in
the refinement flow `"result"` wins with an empty array after `"files"` and
`"changes"` miss; in the generation flow (single-object decode broken by
`"filename": true`) the key `"data"` wins after `"files"`, `"result"`, and
`"code"` miss. -/
theorem c1_precedence_witness :
    refineParse "\x7b\"result\":[]\x7d" = .ok [] ∧
    genParse "\x7b\"filename\":true,\"data\":[\x7b\"filename\":\"a\",\"type\":\"t\",\"content\":\"c\"\x7d]\x7d"
      = .wrapped "data" [⟨"a", "t", "c"⟩] :=
  ⟨c1_precedence_amended.1 "\x7b\"result\":[]\x7d" [("result", Json.arr [])]
      ["files", "changes"] ["code", "output"] "result" (Json.arr []) []
      rfl rfl (by decide) rfl (by decide),
   c1_precedence_amended.2.1
      "\x7b\"filename\":true,\"data\":[\x7b\"filename\":\"a\",\"type\":\"t\",\"content\":\"c\"\x7d]\x7d"
      [("filename", Json.bool true),
       ("data", Json.arr [Json.obj [("filename", Json.str "a"), ("type", Json.str "t"),
          ("content", Json.str "c")]])]
      ["files", "result", "code"] ["output"] "data"
      (Json.arr [Json.obj [("filename", Json.str "a"), ("type", Json.str "t"),
          ("content", Json.str "c")]])
      [⟨"a", "t", "c"⟩]
      rfl (by decide) rfl (by decide) rfl (by decide) (by decide)⟩

/-! ### Claim C4 -/

/-- Claim C4: on a classified-transient completion error the call is reissued
exactly once after the fixed 2-second backoff — in the generation flow with
the response mode escalated from loose (no response format) to the strict
JSON-object mode, in the refinement flow with the identical already-strict
request — the reissued call's failure is surfaced as is, and no flow ever
issues more than two calls. -/
theorem c4_retry_once (p : String)
    (svc : Nat → ChatRequest → Except SvcError ChatResponse) (e : SvcError)
    (h0 : svc 0 (genRequest p) = .error e) (ht : shouldRetry e = true) :
    (genCompletion p svc).1 = ⟨[genRequest p, genRetryRequest p], [2]⟩ ∧
    (genCompletion p svc).2 = svc 1 (genRetryRequest p) ∧
    (genRequest p).responseFormat = none ∧
    (genRetryRequest p).responseFormat = some .jsonObject ∧
    (∀ svcB : Nat → ChatRequest → Except SvcError ChatResponse,
      ((genCompletion p svcB).1.calls).length ≤ 2 ∧
      ((refineCompletion p p svcB).1.calls).length ≤ 2) ∧
    (∀ e2, svc 1 (genRetryRequest p) = .error e2 →
      (genCompletion p svc).2 = .error e2) ∧
    (∀ (q c : String) (svcR : Nat → ChatRequest → Except SvcError ChatResponse)
        (eR : SvcError),
      svcR 0 (refineRequest q c) = .error eR → ShouldRetry eR = true →
      (refineCompletion q c svcR).1 = ⟨[refineRequest q c, refineRequest q c], [2]⟩ ∧
      (refineCompletion q c svcR).2 = svcR 1 (refineRequest q c) ∧
      (refineRequest q c).responseFormat = some .jsonObject) := by
  have hmain : genCompletion p svc
      = (⟨[genRequest p, genRetryRequest p], [2]⟩, svc 1 (genRetryRequest p)) := by
    simp [genCompletion, h0, ht]
  refine ⟨by rw [hmain], by rw [hmain], rfl, rfl, ?_, ?_, ?_⟩
  · intro svcB
    constructor
    · unfold genCompletion
      cases hb : svcB 0 (genRequest p) with
      | ok r => simp [hb]
      | error eB => by_cases hr : shouldRetry eB <;> simp [hb, hr]
    · unfold refineCompletion
      cases hb : svcB 0 (refineRequest p p) with
      | ok r => simp [hb]
      | error eB => by_cases hr : ShouldRetry eB <;> simp [hb, hr]
  · intro e2 h2
    rw [hmain]
    exact h2
  · intro q c svcR eR hR htR
    have hm2 : refineCompletion q c svcR
        = (⟨[refineRequest q c, refineRequest q c], [2]⟩, svcR 1 (refineRequest q c)) := by
      simp [refineCompletion, hR, htR]
    exact ⟨by rw [hm2], by rw [hm2], rfl⟩

/-- Claim C4, witness: the retry theorem applied to a service failing first
with a rate-limit error, then with a 503: both flows issue exactly the two
recorded calls, sleep 2 seconds once, and surface the second failure. -/
theorem c4_retry_witness :
    (genCompletion "make a site" svcFailTwice).1
      = ⟨[genRequest "make a site", genRetryRequest "make a site"], [2]⟩ ∧
    (genCompletion "make a site" svcFailTwice).2
      = .error ⟨"503 service unavailable", some 503⟩ ∧
    (refineCompletion "add a hero" "ctx" svcFailTwice).2
      = .error ⟨"503 service unavailable", some 503⟩ := by
  obtain ⟨h1, h2, _, _, _, h6, h7⟩ :=
    c4_retry_once "make a site" svcFailTwice ⟨"429 rate limit exceeded", some 429⟩
      rfl (by decide)
  refine ⟨h1, h6 ⟨"503 service unavailable", some 503⟩ rfl, ?_⟩
  obtain ⟨r1, r2, r3⟩ :=
    h7 "add a hero" "ctx" svcFailTwice ⟨"429 rate limit exceeded", some 429⟩ rfl (by decide)
  exact r2.trans rfl
